import Mathlib

/-!
Verification of the Subsonic stream/download delivery layer
(`server/subsonic/stream.go`).  The file under scrutiny contains two
revisions of the same handlers: an original `Stream` handler with the
non-seekable delivery logic inlined, and a refactored revision where that
logic lives in `serveStream` and is shared by `Stream` and `Download`.

The shallow embedding below models:
  * the HTTP response writer as an explicit state (headers assoc list,
    committed status, body bytes), following net/http semantics: headers
    added after the status has been written are not transmitted, and the
    first nonempty body write commits status 200;
  * a resolved `core.Stream` as a record carrying the attributes the
    handlers consult plus its byte content;
  * the Range-header parsing done with `strings.Split` / `strconv.Atoi`
    (errors ignored, which yields 0);
  * both revisions of the non-seekable delivery logic, the `Stream`
    handler, and the `Download` handler.

Collaborators that live outside the sources under verification
(parameter parsing, the streamer, the catalog lookup, the archiver) are
passed in as explicit inputs, and the observable effects the spec talks
about (stream bytes consumed, background drain launched, stream closed,
entity lookup performed, arguments handed to the resolver/archiver) are
recorded in the result records.
-/

namespace Subsonic

/-- Replace-or-append update of an association list of headers, embedding
`http.Header.Set` (a map update; at most one entry per key ever exists
because headers are only built through this operation). -/
def setH : List (String × String) → String → String → List (String × String)
  | [], k, v => [(k, v)]
  | p :: rest, k, v => if p.1 = k then (k, v) :: rest else p :: setH rest k v

theorem lookup_setH_self (hs : List (String × String)) (k v : String) :
    List.lookup k (setH hs k v) = some v := by
  induction hs with
  | nil => simp [setH, List.lookup]
  | cons p rest ih =>
    by_cases h : p.1 = k
    · simp [setH, h, List.lookup]
    · have hb : (k == p.1) = false := beq_eq_false_iff_ne.mpr (Ne.symm h)
      simp [setH, h, List.lookup, hb, ih]

theorem lookup_setH_ne (hs : List (String × String)) {k k' : String} (v : String)
    (h : k ≠ k') : List.lookup k (setH hs k' v) = List.lookup k hs := by
  have hb : (k == k') = false := beq_eq_false_iff_ne.mpr h
  induction hs with
  | nil => simp [setH, List.lookup, hb]
  | cons p rest ih =>
    by_cases hp : p.1 = k'
    · subst hp
      simp [setH, List.lookup, hb]
    · simp [setH, hp, List.lookup, ih]

/-- State of an `http.ResponseWriter`: headers set so far, the committed
status code (`none` while `WriteHeader` has not run), and the body bytes
written by the handler. -/
structure ResponseWriter where
  headers : List (String × String)
  status : Option Nat
  body : List Nat
deriving DecidableEq

def emptyWriter : ResponseWriter := ⟨[], none, []⟩

/-- `w.Header().Set(k, v)`: mutates the header map; a header set after the
status line has been written is never transmitted, so it is modelled as a
no-op on the observable response. -/
def setHeader (w : ResponseWriter) (k v : String) : ResponseWriter :=
  if w.status.isSome then w else { w with headers := setH w.headers k v }

/-- `w.WriteHeader(s)`: commits the status; a superfluous second call is
ignored by net/http. -/
def writeHeader (w : ResponseWriter) (s : Nat) : ResponseWriter :=
  if w.status.isSome then w else { w with status := some s }

/-- Body bytes written via `w.Write` / `io.Copy(w, ...)`: the first write
commits status 200 if none was committed; `io.Copy` performs no write at
all for an empty source. -/
def writeBody (w : ResponseWriter) (bs : List Nat) : ResponseWriter :=
  if bs = [] then w
  else { w with status := some (w.status.getD 200), body := w.body ++ bs }

/-- A resolved `core.Stream`.  `durationFormatted` stands for the
`strconv.FormatFloat(float64(stream.Duration()), 'G', -1, 32)` rendering of
the float32 duration, kept abstract because floating-point formatting is
outside this embedding (no claim depends on it).  `content` is the byte
sequence the stream will deliver. -/
structure Stream where
  name : String
  contentType : String
  durationFormatted : String
  modTime : Nat
  seekable : Bool
  estimatedContentLength : Int
  content : List Nat
deriving DecidableEq

/-- The request attributes the handlers consult.  `rangeHdr` is
`r.Header.Get("Range")`, which yields `""` when the header is absent; the
query parameters are modelled already parsed with their documented
defaults (`utils.ParamString` / `ParamInt` / `ParamBool` are collaborators
outside the sources under verification). -/
structure HttpRequest where
  method : String
  rangeHdr : String
  format : String
  maxBitRate : Int
  bitrate : Int
  estimateContentLength : Bool
deriving DecidableEq

/-- `strings.HasPrefix`, stated over the character lists. -/
def goHasPrefix (s p : String) : Bool :=
  p.data.isPrefixOf s.data

/-- `strings.Split` for a single-character separator (the handlers only
split on `=` and `-`): splits around each occurrence of the separator,
yielding one (possibly empty) piece more than there are occurrences. -/
def splitChar (sep : Char) : List Char → List (List Char)
  | [] => [[]]
  | c :: rest =>
    match splitChar sep rest with
    | [] => [[]]
    | h :: t => if c = sep then [] :: h :: t else (c :: h) :: t

/-- `strconv.Atoi` on a character list, with the error ignored as the
handlers do: an empty string or any non-digit after the optional sign
yields 0 (syntax error case of `ParseInt`); a value outside the 64-bit
range is clamped (range error case, whose clamped result the callers
keep). -/
def goAtoiChars (cs : List Char) : Int :=
  let core : List Char → Bool → Int := fun ds neg =>
    if ds ≠ [] ∧ ds.all (fun c => c.isDigit) then
      let n : Nat := ds.foldl (fun a c => a * 10 + (c.toNat - 48)) 0
      if neg then
        if (n : Int) > 2 ^ 63 then -(2 ^ 63) else -(n : Int)
      else
        if (n : Int) > 2 ^ 63 - 1 then 2 ^ 63 - 1 else (n : Int)
    else 0
  match cs with
  | [] => 0
  | c :: rest =>
    if c = '-' then core rest true
    else if c = '+' then core rest false
    else core cs false

/-- The Range parsing of both revisions:
`reqBlockRange := strings.Split(strings.Split(reqRange, "=")[1], "-")`,
then `Atoi` on the pieces with errors ignored.  The `[1]` index is safe
because the callers guard with `strings.HasPrefix(reqRange, "bytes=")`,
which guarantees at least one `=`; `getD` mirrors that. -/
def parseRangeHeader (reqRange : String) : Int × Int :=
  let reqBlockRange := splitChar '-' ((splitChar '=' reqRange.data).getD 1 [])
  let startPosition := goAtoiChars (reqBlockRange.headD [])
  let endPosition :=
    if reqBlockRange.length > 1 ∧ reqBlockRange.getD 1 [] ≠ [] then
      goAtoiChars (reqBlockRange.getD 1 [])
    else 0
  (startPosition, endPosition)

/-- Observable outcome of one delivery: whether the seekable case
delegated to `http.ServeContent` (whose internals are the standard
library's, outside this embedding), the writer state, how many stream
bytes the handler path itself read before returning, and whether a
detached background drain goroutine was launched. -/
structure DeliveryResult where
  delegated : Bool
  writer : ResponseWriter
  consumedSync : Nat
  bgDrain : Bool
deriving DecidableEq

/-- A delivery eventually drains the stream in full if the handler path
read everything synchronously or a detached drain task (which copies the
stream to `io.Discard` until EOF) was launched. -/
def eventuallyDrained (d : DeliveryResult) (s : Stream) : Prop :=
  d.bgDrain = true ∨ d.consumedSync = s.content.length

instance (d : DeliveryResult) (s : Stream) : Decidable (eventuallyDrained d s) :=
  inferInstanceAs (Decidable (_ ∨ _))

/-- The full-request path of the non-seekable branch (identical in both
revisions): `Accept-Ranges: none`, `Content-Type` from the stream, the
estimated `Content-Length` when requested, then either the detached
background drain (HEAD) or `io.Copy(w, stream)` (GET). -/
def fullRequestPath (r : HttpRequest) (stream : Stream) (w0 : ResponseWriter) :
    DeliveryResult :=
  let w := setHeader w0 "Accept-Ranges" "none"
  let w := setHeader w "Content-Type" stream.contentType
  let w :=
    if r.estimateContentLength then
      setHeader w "Content-Length" (toString stream.estimatedContentLength)
    else w
  if r.method = "HEAD" then
    { delegated := false, writer := w, consumedSync := 0, bgDrain := true }
  else
    { delegated := false, writer := writeBody w stream.content,
      consumedSync := stream.content.length, bgDrain := false }

/-- The capability-probe branch, identical in both revisions:
`io.ReadAll(stream)` (reading every remaining byte), the probe headers,
`WriteHeader(206)`, the post-commit `Status` header (not transmitted), and
the write of `one := make([]byte, 2)` — a two-byte zero buffer; the read
into it is commented out in the source. -/
def rangeProbePath (sp : Int × Int) (stream : Stream) (w0 : ResponseWriter) :
    DeliveryResult :=
  let data := stream.content
  let w := setHeader w0 "Content-Range"
    ("bytes " ++ toString sp.1 ++ "-" ++ toString sp.2 ++ "/" ++ toString data.length)
  let w := setHeader w "Accept-Ranges" "bytes"
  let w := setHeader w "Content-Type" "audio/aac"
  let w := writeHeader w 206
  let w := setHeader w "Status" "206"
  let w := writeBody w (List.replicate 2 0)
  { delegated := false, writer := w, consumedSync := data.length, bgDrain := false }

/-- The refactored delivery function `serveStream` (second revision):
seekable streams delegate to `http.ServeContent`; otherwise the probe
branch fires for a parsed `0-1` range, and — crucially — a Range header in
`bytes=` form that does not parse to `0-1` falls into neither branch (the
full-request logic sits in the `else` of the `bytes=` test), producing no
output at all. -/
def serveStream (r : HttpRequest) (stream : Stream) (w0 : ResponseWriter) :
    DeliveryResult :=
  if stream.seekable then
    { delegated := true, writer := w0, consumedSync := 0, bgDrain := false }
  else
    let reqRange := r.rangeHdr
    if reqRange ≠ "" ∧ goHasPrefix reqRange "bytes=" then
      let sp := parseRangeHeader reqRange
      if sp.1 = 0 ∧ sp.2 = 1 then
        rangeProbePath sp stream w0
      else
        { delegated := false, writer := w0, consumedSync := 0, bgDrain := false }
    else
      fullRequestPath r stream w0

/-- The original inline delivery logic of the first revision's `Stream`
handler: the probe branch returns early, and every other case — including
a `bytes=` Range that does not parse to `0-1` — falls through to the
full-request path. -/
def streamInline (r : HttpRequest) (stream : Stream) (w0 : ResponseWriter) :
    DeliveryResult :=
  if stream.seekable then
    { delegated := true, writer := w0, consumedSync := 0, bgDrain := false }
  else
    let reqRange := r.rangeHdr
    if reqRange ≠ "" ∧ goHasPrefix reqRange "bytes=" then
      let sp := parseRangeHeader reqRange
      if sp.1 = 0 ∧ sp.2 = 1 then
        rangeProbePath sp stream w0
      else
        fullRequestPath r stream w0
    else
      fullRequestPath r stream w0

/-- Protocol error kinds reaching the (excluded) error-envelope layer:
`newError(responses.ErrorAuthorizationFail, ...)`, `model.ErrNotFound`,
and opaque errors propagated from collaborators. -/
inductive SubError
  | authorizationFail
  | dataNotFound
  | other (code : Nat)
deriving DecidableEq

/-- Result of a fallible collaborator call or of a handler. -/
inductive ROut (α : Type)
  | ok (a : α)
  | err (e : SubError)
deriving DecidableEq

/-- The entity kinds `GetEntityByID` can hand to `Download`; `other`
stands for any value outside the four matched types, sent to the
`default` arm (`model.ErrNotFound`). -/
inductive Entity
  | mediaFile
  | album (name : String)
  | artist (name : String)
  | playlist (name : String)
  | other
deriving DecidableEq

/-- A per-client transcoding profile from `request.TranscodingFrom`. -/
structure Transcoding where
  targetFormat : String
  defaultBitRate : Int
deriving DecidableEq

/-- The configuration flags `Download` consults. -/
structure Config where
  enableDownloads : Bool
  autoTranscodeDownload : Bool
deriving DecidableEq

/-- The effective format/bitrate computation of the refactored `Download`
handler: an unset `format` resolves to the client transcoding profile
only when `AutoTranscodeDownload` is on and a profile exists, and to
`"raw"` otherwise; an explicit format (and the request bitrate) pass
through unchanged. -/
def effectiveFormat (cfg : Config) (tc : Option Transcoding)
    (format : String) (bitrate : Int) : String × Int :=
  if format = "" then
    if cfg.autoTranscodeDownload then
      match tc with
      | none => ("raw", bitrate)
      | some t => (t.targetFormat, t.defaultBitRate)
    else ("raw", bitrate)
  else (format, bitrate)

/-- The name sanitization in `Download`'s `setHeaders` closure:
`strings.ReplaceAll(name, ",", "_")`, which for a single-character
pattern is exactly a character map. -/
def sanitizeName (s : String) : String :=
  String.mk (s.data.map fun c => if c = ',' then '_' else c)

/-- `Download`'s `setHeaders` closure: sanitize the collection name, then
set `Content-Disposition: attachment; filename="<name>.zip"` and
`Content-Type: application/zip`. -/
def setDownloadHeaders (w0 : ResponseWriter) (name : String) : ResponseWriter :=
  let n := sanitizeName name
  let w := setHeader w0 "Content-Disposition"
    ("attachment; filename=\"" ++ n ++ ".zip\"")
  setHeader w "Content-Type" "application/zip"

/-- Modelled from the spec: the Archive Exporter (§4.5) is not among the
sources under verification; per the spec it resolves one Stream per
member of the collection using the shared target format/bitrate handed to
`ZipAlbum`/`ZipArtist`/`ZipPlaylist`, writing one zip entry per member. -/
def zipEntries (members : List String) (format : String) (bitrate : Int) :
    List (String × String × Int) :=
  members.map fun m => (m, format, bitrate)

/-- Collaterals of one `Download` call, supplied by collaborators outside
the sources under verification: the catalog lookup result, the streamer
(`NewStream` as a function of the format/bitrate it is called with), the
client transcoding profile, and the archiver outcome. -/
structure DownloadDeps where
  lookup : ROut Entity
  resolve : String → Int → ROut Stream
  transcoding : Option Transcoding
  archive : ROut Unit

/-- Observable outcome of the `Download` handler: returned value, whether
the entity lookup ran, the writer state, the delivery performed for a
media file, whether the resolved stream was closed before returning, and
the format/bitrate arguments handed to the stream resolver and to the
archiver. -/
structure DownloadOutcome where
  result : ROut Unit
  lookupPerformed : Bool
  writer : ResponseWriter
  delivery : Option DeliveryResult
  streamClosed : Bool
  resolveArgs : Option (String × Int)
  archiveArgs : Option (String × Int)
deriving DecidableEq

/-- The refactored `Download` handler.  The required `id` parameter is
supplied by the excluded parameter-parsing layer (`requiredParamString`,
outside the sources under verification), so requests reaching this logic
carry it.  Note the MediaFile arm: it resolves a stream, serves it, and
returns without ever closing it — there is no `defer stream.Close()` in
this handler. -/
def download (cfg : Config) (deps : DownloadDeps) (r : HttpRequest)
    (w0 : ResponseWriter) : DownloadOutcome :=
  if cfg.enableDownloads = false then
    { result := .err .authorizationFail, lookupPerformed := false, writer := w0,
      delivery := none, streamClosed := false, resolveArgs := none,
      archiveArgs := none }
  else
    match deps.lookup with
    | .err e =>
      { result := .err e, lookupPerformed := true, writer := w0,
        delivery := none, streamClosed := false, resolveArgs := none,
        archiveArgs := none }
    | .ok entity =>
      let fb := effectiveFormat cfg deps.transcoding r.format r.bitrate
      match entity with
      | .mediaFile =>
        match deps.resolve fb.1 fb.2 with
        | .err e =>
          { result := .err e, lookupPerformed := true, writer := w0,
            delivery := none, streamClosed := false, resolveArgs := some fb,
            archiveArgs := none }
        | .ok stream =>
          let w := setHeader w0 "Content-Disposition"
            ("attachment; filename=\"" ++ stream.name ++ "\"")
          let d := serveStream r stream w
          { result := .ok (), lookupPerformed := true, writer := d.writer,
            delivery := some d, streamClosed := false, resolveArgs := some fb,
            archiveArgs := none }
      | .album name =>
        { result := deps.archive, lookupPerformed := true,
          writer := setDownloadHeaders w0 name, delivery := none,
          streamClosed := false, resolveArgs := none, archiveArgs := some fb }
      | .artist name =>
        { result := deps.archive, lookupPerformed := true,
          writer := setDownloadHeaders w0 name, delivery := none,
          streamClosed := false, resolveArgs := none, archiveArgs := some fb }
      | .playlist name =>
        { result := deps.archive, lookupPerformed := true,
          writer := setDownloadHeaders w0 name, delivery := none,
          streamClosed := false, resolveArgs := none, archiveArgs := some fb }
      | .other =>
        { result := .err .dataNotFound, lookupPerformed := true, writer := w0,
          delivery := none, streamClosed := false, resolveArgs := none,
          archiveArgs := none }

/-- Observable outcome of the `Stream` handler. -/
structure StreamOutcome where
  result : ROut Unit
  writer : ResponseWriter
  delivery : Option DeliveryResult
  streamClosed : Bool
deriving DecidableEq

/-- The refactored `Stream` handler: resolve the stream (the streamer
outcome is an input), install the deferred `stream.Close()` (which runs on
the single return path after delivery), set the two X-headers, and
delegate delivery to `serveStream`. -/
def streamHandler (resolve : ROut Stream) (r : HttpRequest)
    (w0 : ResponseWriter) : StreamOutcome :=
  match resolve with
  | .err e =>
    { result := .err e, writer := w0, delivery := none, streamClosed := false }
  | .ok stream =>
    let w := setHeader w0 "X-Content-Type-Options" "nosniff"
    let w := setHeader w "X-Content-Duration" stream.durationFormatted
    let d := serveStream r stream w
    { result := .ok (), writer := d.writer, delivery := some d,
      streamClosed := true }

end Subsonic

namespace Subsonic

theorem serveStream_seekable (r : HttpRequest) (s : Stream) (w0 : ResponseWriter)
    (hseek : s.seekable = true) :
    serveStream r s w0 = ⟨true, w0, 0, false⟩ := by
  simp [serveStream, hseek]

theorem hasPrefix_ne_empty {rg : String} (hpre : goHasPrefix rg "bytes=" = true) :
    rg ≠ "" := by
  intro h
  rw [h] at hpre
  exact absurd hpre (by decide)

theorem serveStream_probe (r : HttpRequest) (s : Stream) (w0 : ResponseWriter)
    (hseek : s.seekable = false) (hpre : goHasPrefix r.rangeHdr "bytes=" = true)
    (hparse : parseRangeHeader r.rangeHdr = (0, 1)) :
    serveStream r s w0 = rangeProbePath (0, 1) s w0 := by
  simp [serveStream, hseek, hasPrefix_ne_empty hpre, hpre, hparse]

theorem serveStream_silent (r : HttpRequest) (s : Stream) (w0 : ResponseWriter)
    (hseek : s.seekable = false) (hpre : goHasPrefix r.rangeHdr "bytes=" = true)
    (hne : ¬((parseRangeHeader r.rangeHdr).1 = 0 ∧ (parseRangeHeader r.rangeHdr).2 = 1)) :
    serveStream r s w0 = ⟨false, w0, 0, false⟩ := by
  simp [serveStream, hseek, hasPrefix_ne_empty hpre, hpre, hne]

theorem serveStream_full (r : HttpRequest) (s : Stream) (w0 : ResponseWriter)
    (hseek : s.seekable = false) (hpre : goHasPrefix r.rangeHdr "bytes=" = false) :
    serveStream r s w0 = fullRequestPath r s w0 := by
  simp [serveStream, hseek, hpre]

theorem streamInline_probe (r : HttpRequest) (s : Stream) (w0 : ResponseWriter)
    (hseek : s.seekable = false) (hpre : goHasPrefix r.rangeHdr "bytes=" = true)
    (hparse : parseRangeHeader r.rangeHdr = (0, 1)) :
    streamInline r s w0 = rangeProbePath (0, 1) s w0 := by
  simp [streamInline, hseek, hasPrefix_ne_empty hpre, hpre, hparse]

theorem streamInline_nonprobe (r : HttpRequest) (s : Stream) (w0 : ResponseWriter)
    (hseek : s.seekable = false) (hpre : goHasPrefix r.rangeHdr "bytes=" = true)
    (hne : ¬((parseRangeHeader r.rangeHdr).1 = 0 ∧ (parseRangeHeader r.rangeHdr).2 = 1)) :
    streamInline r s w0 = fullRequestPath r s w0 := by
  simp [streamInline, hseek, hasPrefix_ne_empty hpre, hpre, hne]

theorem streamInline_full (r : HttpRequest) (s : Stream) (w0 : ResponseWriter)
    (hseek : s.seekable = false) (hpre : goHasPrefix r.rangeHdr "bytes=" = false) :
    streamInline r s w0 = fullRequestPath r s w0 := by
  simp [streamInline, hseek, hpre]

theorem rangeProbePath_eq (sp : Int × Int) (s : Stream) (w0 : ResponseWriter)
    (hst : w0.status = none) :
    rangeProbePath sp s w0 =
      { delegated := false,
        writer :=
          { headers :=
              setH (setH (setH w0.headers "Content-Range"
                  ("bytes " ++ toString sp.1 ++ "-" ++ toString sp.2 ++ "/" ++
                    toString s.content.length))
                "Accept-Ranges" "bytes")
                "Content-Type" "audio/aac",
            status := some 206,
            body := w0.body ++ [0, 0] },
        consumedSync := s.content.length, bgDrain := false } := by
  simp [rangeProbePath, setHeader, writeHeader, writeBody, hst, List.replicate]

end Subsonic

namespace Subsonic

theorem writeBody_headers (w : ResponseWriter) (bs : List Nat) :
    (writeBody w bs).headers = w.headers := by
  by_cases h : bs = [] <;> simp [writeBody, h]

theorem streamInline_seekable (r : HttpRequest) (s : Stream) (w0 : ResponseWriter)
    (hseek : s.seekable = true) :
    streamInline r s w0 = ⟨true, w0, 0, false⟩ := by
  simp [streamInline, hseek]

/-- C1 counterexample: the claim says the probe body is exactly the first
2 bytes read from the stream, but the code writes a fresh 2-byte zero
buffer (the read into it is commented out).  On a stream beginning with
bytes 7, 9 the probe body is [0, 0], not [7, 9]. -/
theorem probe_body_not_first_two_stream_bytes :
    ¬((serveStream ⟨"GET", "bytes=0-1", "", 0, 0, false⟩
        ⟨"track.mp3", "audio/mpeg", "100", 0, false, 128, [7, 9, 4, 2]⟩
        emptyWriter).writer.body =
      ([7, 9, 4, 2] : List Nat).take 2) := by decide

/-- C1 (amended): for every non-seekable Stream and request whose Range
header starts with "bytes=" and parses to start 0 and end 1, the response
has status 206, Content-Range "bytes 0-1/N" with N the number of bytes
actually read from the stream (all of them), Accept-Ranges "bytes",
Content-Type "audio/aac", and a body of exactly two zero bytes. -/
theorem probe_response_c1_amended (r : HttpRequest) (s : Stream)
    (w0 : ResponseWriter) (hseek : s.seekable = false)
    (hpre : goHasPrefix r.rangeHdr "bytes=" = true)
    (hparse : parseRangeHeader r.rangeHdr = (0, 1))
    (hst : w0.status = none) (hb : w0.body = []) :
    (serveStream r s w0).writer.status = some 206 ∧
    (serveStream r s w0).writer.headers.lookup "Content-Range" =
      some ("bytes 0-1/" ++ toString s.content.length) ∧
    (serveStream r s w0).writer.headers.lookup "Accept-Ranges" = some "bytes" ∧
    (serveStream r s w0).writer.headers.lookup "Content-Type" = some "audio/aac" ∧
    (serveStream r s w0).writer.body = [0, 0] := by
  rw [serveStream_probe r s w0 hseek hpre hparse, rangeProbePath_eq _ _ _ hst]
  refine ⟨rfl, ?_, ?_, ?_, by simp [hb]⟩
  · rw [lookup_setH_ne _ _ (by decide), lookup_setH_ne _ _ (by decide),
      lookup_setH_self]
    rfl
  · rw [lookup_setH_ne _ _ (by decide), lookup_setH_self]
  · rw [lookup_setH_self]

theorem probe_response_c1_amended_witness :
    (serveStream ⟨"GET", "bytes=0-1", "", 0, 0, false⟩
        ⟨"a.flac", "audio/flac", "7", 3, false, 10, [1, 2, 3]⟩
        emptyWriter).writer.status = some 206 ∧
    (serveStream ⟨"GET", "bytes=0-1", "", 0, 0, false⟩
        ⟨"a.flac", "audio/flac", "7", 3, false, 10, [1, 2, 3]⟩
        emptyWriter).writer.headers.lookup "Content-Range" =
      some ("bytes 0-1/" ++ toString ([1, 2, 3] : List Nat).length) ∧
    (serveStream ⟨"GET", "bytes=0-1", "", 0, 0, false⟩
        ⟨"a.flac", "audio/flac", "7", 3, false, 10, [1, 2, 3]⟩
        emptyWriter).writer.headers.lookup "Accept-Ranges" = some "bytes" ∧
    (serveStream ⟨"GET", "bytes=0-1", "", 0, 0, false⟩
        ⟨"a.flac", "audio/flac", "7", 3, false, 10, [1, 2, 3]⟩
        emptyWriter).writer.headers.lookup "Content-Type" = some "audio/aac" ∧
    (serveStream ⟨"GET", "bytes=0-1", "", 0, 0, false⟩
        ⟨"a.flac", "audio/flac", "7", 3, false, 10, [1, 2, 3]⟩
        emptyWriter).writer.body = [0, 0] :=
  probe_response_c1_amended _ _ _ (by decide) (by decide) (by decide)
    (by decide) (by decide)

/-- C2 counterexample: the claim says the probe path leaves the bytes
beyond the 2 probe bytes undrained, i.e. consumes at most 2 bytes; on a
5-byte stream the probe path consumes all 5 (io.ReadAll). -/
theorem probe_leaves_remainder_undrained_false :
    ¬((serveStream ⟨"GET", "bytes=0-1", "", 0, 0, false⟩
        ⟨"t.ogg", "audio/ogg", "1", 0, false, 0, [1, 2, 3, 4, 5]⟩
        emptyWriter).consumedSync ≤ 2) := by decide

/-- C2 (amended): the capability-probe path consumes the entire remaining
stream (io.ReadAll, used to learn the byte count) before responding;
nothing is left undrained. -/
theorem probe_drains_entire_stream (r : HttpRequest) (s : Stream)
    (w0 : ResponseWriter) (hseek : s.seekable = false)
    (hpre : goHasPrefix r.rangeHdr "bytes=" = true)
    (hparse : parseRangeHeader r.rangeHdr = (0, 1)) :
    (serveStream r s w0).consumedSync = s.content.length := by
  rw [serveStream_probe r s w0 hseek hpre hparse]
  simp [rangeProbePath]

theorem probe_drains_entire_stream_witness :
    (serveStream ⟨"HEAD", "bytes=0-1", "", 0, 0, true⟩
        ⟨"b.mp3", "audio/mpeg", "2", 9, false, 44, [8, 8, 8, 8]⟩
        emptyWriter).consumedSync = ([8, 8, 8, 8] : List Nat).length :=
  probe_drains_entire_stream _ _ _ (by decide) (by decide) (by decide)

/-- C3: the claim says a malformed Range defaults start/end to 0 and is
served as a full request.  The parse does default to (0, 0), and the
original inline implementation does serve the full request, but the
refactored serveStream writes neither headers nor body for a
present-but-malformed "bytes=" Range (the full-request logic sits in the
else of the "bytes=" test): evaluated at Range "bytes=abc" on a
non-seekable stream. -/
theorem malformed_bytes_range_served_silently :
    parseRangeHeader "bytes=abc" = (0, 0) ∧
    serveStream ⟨"GET", "bytes=abc", "", 0, 0, false⟩
        ⟨"t.mp3", "audio/mpeg", "1", 0, false, 0, [9, 9]⟩ emptyWriter =
      ⟨false, emptyWriter, 0, false⟩ ∧
    (streamInline ⟨"GET", "bytes=abc", "", 0, 0, false⟩
        ⟨"t.mp3", "audio/mpeg", "1", 0, false, 0, [9, 9]⟩
        emptyWriter).writer.headers.lookup "Accept-Ranges" = some "none" ∧
    (streamInline ⟨"GET", "bytes=abc", "", 0, 0, false⟩
        ⟨"t.mp3", "audio/mpeg", "1", 0, false, 0, [9, 9]⟩
        emptyWriter).writer.body = [9, 9] := by decide

end Subsonic

namespace Subsonic

/-- C4 counterexample: the claim says Content-Length is present iff
estimateContentLength=true and the stream is non-seekable; a probe
request (Range "bytes=0-1") with estimateContentLength=true on a
non-seekable stream gets no Content-Length header. -/
theorem content_length_iff_false_on_probe :
    ¬(((serveStream ⟨"GET", "bytes=0-1", "", 0, 0, true⟩
          ⟨"p.mp3", "audio/mpeg", "3", 0, false, 777, [1, 1]⟩
          emptyWriter).writer.headers.lookup "Content-Length").isSome ↔
        ((⟨"GET", "bytes=0-1", "", 0, 0, true⟩ : HttpRequest).estimateContentLength = true ∧
          (⟨"p.mp3", "audio/mpeg", "3", 0, false, 777, [1, 1]⟩ : Stream).seekable = false)) := by
  decide

/-- C4 (amended): within the non-seekable delivery path, a Content-Length
header is present iff the request sets estimateContentLength=true and the
full-request branch is taken (Range header not starting with "bytes=");
when present its value is the Stream's estimated content length.  The
probe and silent branches never set it; the seekable path delegates to
the standard library and is outside this embedding. -/
theorem content_length_iff_c4_amended (r : HttpRequest) (s : Stream)
    (w0 : ResponseWriter) (hseek : s.seekable = false)
    (hst : w0.status = none)
    (hcl : w0.headers.lookup "Content-Length" = none) :
    (serveStream r s w0).writer.headers.lookup "Content-Length" =
      if r.estimateContentLength = true ∧ goHasPrefix r.rangeHdr "bytes=" = false
      then some (toString s.estimatedContentLength) else none := by
  by_cases hpre : goHasPrefix r.rangeHdr "bytes=" = true
  · by_cases hp : (parseRangeHeader r.rangeHdr).1 = 0 ∧ (parseRangeHeader r.rangeHdr).2 = 1
    · have hparse : parseRangeHeader r.rangeHdr = (0, 1) := by
        rcases hpq : parseRangeHeader r.rangeHdr with ⟨a, b⟩
        rw [hpq] at hp
        simp only at hp
        rw [hp.1, hp.2]
      rw [serveStream_probe r s w0 hseek hpre hparse, rangeProbePath_eq _ _ _ hst]
      simp only [hpre]
      rw [lookup_setH_ne _ _ (by decide), lookup_setH_ne _ _ (by decide),
        lookup_setH_ne _ _ (by decide), hcl]
      simp
    · rw [serveStream_silent r s w0 hseek hpre hp]
      simp [hpre, hcl]
  · have hpre' : goHasPrefix r.rangeHdr "bytes=" = false := by
      revert hpre
      cases goHasPrefix r.rangeHdr "bytes=" <;> simp
    rw [serveStream_full r s w0 hseek hpre']
    by_cases he : r.estimateContentLength = true <;>
      by_cases hm : r.method = "HEAD" <;>
        simp [fullRequestPath, setHeader, hst, he, hm, hpre', writeBody_headers,
          lookup_setH_self, lookup_setH_ne _ _ (by decide : ("Content-Length" : String) ≠ "Accept-Ranges"),
          lookup_setH_ne _ _ (by decide : ("Content-Length" : String) ≠ "Content-Type"), hcl]

theorem content_length_iff_c4_amended_witness :
    (serveStream ⟨"GET", "", "", 0, 0, true⟩
        ⟨"w.mp3", "audio/mpeg", "4", 1, false, 555, [2, 2]⟩
        emptyWriter).writer.headers.lookup "Content-Length" =
      if (⟨"GET", "", "", 0, 0, true⟩ : HttpRequest).estimateContentLength = true ∧
          goHasPrefix (⟨"GET", "", "", 0, 0, true⟩ : HttpRequest).rangeHdr "bytes=" = false
      then some (toString (⟨"w.mp3", "audio/mpeg", "4", 1, false, 555, [2, 2]⟩ : Stream).estimatedContentLength)
      else none :=
  content_length_iff_c4_amended _ _ _ (by decide) (by decide) (by decide)

/-- C5: the claim says the resolved Stream is closed before the handler
returns in both the Stream handler and the Download MediaFile case; the
refactored Stream handler does close it (deferred Close), but the
Download MediaFile path has no Close at all: evaluated at a successful
MediaFile download, the handler returns ok with the stream still open. -/
theorem download_mediafile_stream_not_closed :
    (download ⟨true, false⟩
        ⟨.ok .mediaFile, fun _ _ => .ok ⟨"song.mp3", "audio/mpeg", "1", 5, false, 99, [3, 1]⟩,
          none, .ok ()⟩
        ⟨"GET", "", "", 0, 0, false⟩ emptyWriter).result = .ok () ∧
    (download ⟨true, false⟩
        ⟨.ok .mediaFile, fun _ _ => .ok ⟨"song.mp3", "audio/mpeg", "1", 5, false, 99, [3, 1]⟩,
          none, .ok ()⟩
        ⟨"GET", "", "", 0, 0, false⟩ emptyWriter).streamClosed = false ∧
    (streamHandler (.ok ⟨"song.mp3", "audio/mpeg", "1", 5, false, 99, [3, 1]⟩)
        ⟨"GET", "", "", 0, 0, false⟩ emptyWriter).streamClosed = true := by
  decide

/-- C6: when EnableDownloads is false, Download fails with the
authorization-failure error before the entity lookup runs and before any
header or body byte is written, for every request (the required id
parameter is supplied by the excluded parsing layer) and every
entity/collaborator configuration. -/
theorem downloads_disabled_forbidden (cfg : Config) (deps : DownloadDeps)
    (r : HttpRequest) (w0 : ResponseWriter)
    (h : cfg.enableDownloads = false) :
    download cfg deps r w0 =
      { result := .err .authorizationFail, lookupPerformed := false,
        writer := w0, delivery := none, streamClosed := false,
        resolveArgs := none, archiveArgs := none } := by
  simp [download, h]

theorem downloads_disabled_forbidden_witness :
    download ⟨false, true⟩
        ⟨.ok (.album "Night, Songs"), fun _ _ => .err (.other 3), none, .ok ()⟩
        ⟨"GET", "", "", 0, 0, false⟩ emptyWriter =
      { result := .err .authorizationFail, lookupPerformed := false,
        writer := emptyWriter, delivery := none, streamClosed := false,
        resolveArgs := none, archiveArgs := none } :=
  downloads_disabled_forbidden _ _ _ _ (by decide)

/-- C7 counterexample: the claim says every HEAD request on a
non-seekable stream launches a detached background drain so the stream is
eventually drained in full; a HEAD request with Range "bytes=2-5" falls
into the refactored silent branch, which launches no drain and reads
nothing. -/
theorem head_silent_branch_never_drained :
    ¬eventuallyDrained
      (serveStream ⟨"HEAD", "bytes=2-5", "", 0, 0, false⟩
        ⟨"h.aac", "audio/aac", "2", 0, false, 7, [5, 6, 7]⟩ emptyWriter)
      ⟨"h.aac", "audio/aac", "2", 0, false, 7, [5, 6, 7]⟩ := by decide

/-- C7 (amended): for every HEAD request on a non-seekable Stream whose
Range header does not begin with "bytes=" (the full-request branch), the
handler writes the headers but no body bytes, and launches the detached
background drain task, so the stream is still eventually drained in full
after the response returns. -/
theorem head_full_branch_background_drain (r : HttpRequest) (s : Stream)
    (w0 : ResponseWriter) (hseek : s.seekable = false)
    (hm : r.method = "HEAD")
    (hpre : goHasPrefix r.rangeHdr "bytes=" = false)
    (hst : w0.status = none) :
    (serveStream r s w0).writer.body = w0.body ∧
    (serveStream r s w0).bgDrain = true ∧
    (serveStream r s w0).writer.headers.lookup "Accept-Ranges" = some "none" ∧
    (serveStream r s w0).writer.headers.lookup "Content-Type" = some s.contentType ∧
    eventuallyDrained (serveStream r s w0) s := by
  rw [serveStream_full r s w0 hseek hpre]
  have har : ∀ he : List (String × String),
      List.lookup "Accept-Ranges"
        (if r.estimateContentLength then
          setH (setH (setH he "Accept-Ranges" "none") "Content-Type" s.contentType)
            "Content-Length" (toString s.estimatedContentLength)
        else setH (setH he "Accept-Ranges" "none") "Content-Type" s.contentType) =
      some "none" := by
    intro he
    by_cases hest : r.estimateContentLength <;>
      simp [hest, lookup_setH_self,
        lookup_setH_ne _ _ (by decide : ("Accept-Ranges" : String) ≠ "Content-Length"),
        lookup_setH_ne _ _ (by decide : ("Accept-Ranges" : String) ≠ "Content-Type")]
  have hct : ∀ he : List (String × String),
      List.lookup "Content-Type"
        (if r.estimateContentLength then
          setH (setH (setH he "Accept-Ranges" "none") "Content-Type" s.contentType)
            "Content-Length" (toString s.estimatedContentLength)
        else setH (setH he "Accept-Ranges" "none") "Content-Type" s.contentType) =
      some s.contentType := by
    intro he
    by_cases hest : r.estimateContentLength <;>
      simp [hest, lookup_setH_self,
        lookup_setH_ne _ _ (by decide : ("Content-Type" : String) ≠ "Content-Length")]
  by_cases hest : r.estimateContentLength <;>
    simp_all [fullRequestPath, setHeader, hst, hm, eventuallyDrained]

theorem head_full_branch_background_drain_witness :
    (serveStream ⟨"HEAD", "", "", 0, 0, true⟩
        ⟨"c.opus", "audio/opus", "9", 2, false, 31, [4, 4, 4]⟩
        emptyWriter).writer.body = emptyWriter.body ∧
    (serveStream ⟨"HEAD", "", "", 0, 0, true⟩
        ⟨"c.opus", "audio/opus", "9", 2, false, 31, [4, 4, 4]⟩
        emptyWriter).bgDrain = true ∧
    (serveStream ⟨"HEAD", "", "", 0, 0, true⟩
        ⟨"c.opus", "audio/opus", "9", 2, false, 31, [4, 4, 4]⟩
        emptyWriter).writer.headers.lookup "Accept-Ranges" = some "none" ∧
    (serveStream ⟨"HEAD", "", "", 0, 0, true⟩
        ⟨"c.opus", "audio/opus", "9", 2, false, 31, [4, 4, 4]⟩
        emptyWriter).writer.headers.lookup "Content-Type" =
      some (⟨"c.opus", "audio/opus", "9", 2, false, 31, [4, 4, 4]⟩ : Stream).contentType ∧
    eventuallyDrained
      (serveStream ⟨"HEAD", "", "", 0, 0, true⟩
        ⟨"c.opus", "audio/opus", "9", 2, false, 31, [4, 4, 4]⟩ emptyWriter)
      ⟨"c.opus", "audio/opus", "9", 2, false, 31, [4, 4, 4]⟩ :=
  head_full_branch_background_drain _ _ _ (by decide) (by decide) (by decide)
    (by decide)

end Subsonic

namespace Subsonic

/-- Name of the collection an entity denotes, when it is one. -/
def collectionName : Entity → Option String
  | .album n => some n
  | .artist n => some n
  | .playlist n => some n
  | _ => none

/-- C8: with the format parameter unset and AutoTranscodeDownload=false,
the effective format resolves to "raw" and the bitrate ceiling to the
request's bitrate value (already defaulted to 0 by the excluded parameter
parsing); Download hands exactly that pair to the stream resolver in the
MediaFile case and to the archiver in the collection cases, and the
archiver (modelled from the spec) assigns it to every archive member. -/
theorem download_unset_format_resolves_raw (cfg : Config)
    (deps : DownloadDeps) (r : HttpRequest) (w0 : ResponseWriter)
    (members : List String) (hf : r.format = "")
    (ha : cfg.autoTranscodeDownload = false) :
    effectiveFormat cfg deps.transcoding r.format r.bitrate = ("raw", r.bitrate) ∧
    (deps.lookup = .ok .mediaFile → cfg.enableDownloads = true →
      (download cfg deps r w0).resolveArgs = some ("raw", r.bitrate)) ∧
    (∀ name, (deps.lookup = .ok (.album name) ∨ deps.lookup = .ok (.artist name) ∨
        deps.lookup = .ok (.playlist name)) → cfg.enableDownloads = true →
      (download cfg deps r w0).archiveArgs = some ("raw", r.bitrate)) ∧
    (∀ e ∈ zipEntries members "raw" r.bitrate, e.2.1 = "raw") := by
  have heff : effectiveFormat cfg deps.transcoding r.format r.bitrate =
      ("raw", r.bitrate) := by
    simp [effectiveFormat, hf, ha]
  refine ⟨heff, ?_, ?_, ?_⟩
  · intro hl hen
    rcases hres : deps.resolve "raw" r.bitrate with a | e <;>
      simp [download, hen, hl, heff, hres]
  · intro name hl hen
    rcases hl with h | h | h <;> simp [download, hen, h, heff]
  · intro e he
    rcases List.mem_map.mp he with ⟨a, _, rfl⟩
    rfl

theorem download_unset_format_resolves_raw_witness :
    effectiveFormat ⟨true, false⟩
        (⟨.ok (.album "Greatest Hits"), fun _ _ => .err (.other 1), some ⟨"opus", 160⟩,
          .ok ()⟩ : DownloadDeps).transcoding
        (⟨"GET", "", "", 0, 320, false⟩ : HttpRequest).format
        (⟨"GET", "", "", 0, 320, false⟩ : HttpRequest).bitrate = ("raw", 320) ∧
    ((⟨.ok (.album "Greatest Hits"), fun _ _ => .err (.other 1), some ⟨"opus", 160⟩,
          .ok ()⟩ : DownloadDeps).lookup = .ok .mediaFile →
      (⟨true, false⟩ : Config).enableDownloads = true →
      (download ⟨true, false⟩
          ⟨.ok (.album "Greatest Hits"), fun _ _ => .err (.other 1), some ⟨"opus", 160⟩, .ok ()⟩
          ⟨"GET", "", "", 0, 320, false⟩ emptyWriter).resolveArgs = some ("raw", 320)) ∧
    (∀ name,
      ((⟨.ok (.album "Greatest Hits"), fun _ _ => .err (.other 1), some ⟨"opus", 160⟩,
          .ok ()⟩ : DownloadDeps).lookup = .ok (.album name) ∨
        (⟨.ok (.album "Greatest Hits"), fun _ _ => .err (.other 1), some ⟨"opus", 160⟩,
          .ok ()⟩ : DownloadDeps).lookup = .ok (.artist name) ∨
        (⟨.ok (.album "Greatest Hits"), fun _ _ => .err (.other 1), some ⟨"opus", 160⟩,
          .ok ()⟩ : DownloadDeps).lookup = .ok (.playlist name)) →
      (⟨true, false⟩ : Config).enableDownloads = true →
      (download ⟨true, false⟩
          ⟨.ok (.album "Greatest Hits"), fun _ _ => .err (.other 1), some ⟨"opus", 160⟩, .ok ()⟩
          ⟨"GET", "", "", 0, 320, false⟩ emptyWriter).archiveArgs = some ("raw", 320)) ∧
    (∀ e ∈ zipEntries ["t1.flac", "t2.flac"] "raw"
        (⟨"GET", "", "", 0, 320, false⟩ : HttpRequest).bitrate, e.2.1 = "raw") :=
  download_unset_format_resolves_raw _ _ _ emptyWriter _ (by decide) (by decide)

/-- C9: for every collection (album, artist, playlist) Download, the
archive filename in the Content-Disposition header is the collection name
with every comma replaced by an underscore, followed by ".zip", and the
emitted filename contains no comma. -/
theorem collection_download_filename_sanitized (cfg : Config)
    (deps : DownloadDeps) (r : HttpRequest) (w0 : ResponseWriter)
    (e : Entity) (name : String) (hen : cfg.enableDownloads = true)
    (hl : deps.lookup = .ok e) (hn : collectionName e = some name)
    (hst : w0.status = none) :
    (download cfg deps r w0).writer.headers.lookup "Content-Disposition" =
      some ("attachment; filename=\"" ++ sanitizeName name ++ ".zip\"") ∧
    sanitizeName name = String.mk (name.data.map fun c => if c = ',' then '_' else c) ∧
    ',' ∉ (sanitizeName name ++ ".zip").data := by
  have hno : ',' ∉ (sanitizeName name ++ ".zip").data := by
    intro hmem
    rw [String.data_append] at hmem
    rcases List.mem_append.mp hmem with h | h
    · rcases List.mem_map.mp h with ⟨c, _, hc⟩
      by_cases hcc : c = ','
      · rw [if_pos hcc] at hc
        exact absurd hc (by decide)
      · rw [if_neg hcc] at hc
        exact hcc hc
    · exact absurd h (by decide)
  have hcd : ∀ hs : List (String × String),
      List.lookup "Content-Disposition"
        (setH (setH hs "Content-Disposition"
          ("attachment; filename=\"" ++ sanitizeName name ++ ".zip\""))
          "Content-Type" "application/zip") =
      some ("attachment; filename=\"" ++ sanitizeName name ++ ".zip\"") := by
    intro hs
    rw [lookup_setH_ne _ _ (by decide), lookup_setH_self]
  cases e with
  | album n =>
    have hname : n = name := by simpa [collectionName] using hn
    subst hname
    exact ⟨by simp [download, hen, hl, setDownloadHeaders, setHeader, hst, hcd], rfl, hno⟩
  | artist n =>
    have hname : n = name := by simpa [collectionName] using hn
    subst hname
    exact ⟨by simp [download, hen, hl, setDownloadHeaders, setHeader, hst, hcd], rfl, hno⟩
  | playlist n =>
    have hname : n = name := by simpa [collectionName] using hn
    subst hname
    exact ⟨by simp [download, hen, hl, setDownloadHeaders, setHeader, hst, hcd], rfl, hno⟩
  | mediaFile => simp [collectionName] at hn
  | other => simp [collectionName] at hn

theorem collection_download_filename_sanitized_witness :
    (download ⟨true, true⟩
        ⟨.ok (.playlist "Road, Trip, Mix"), fun _ _ => .err (.other 2), none, .ok ()⟩
        ⟨"GET", "", "", 0, 0, false⟩ emptyWriter).writer.headers.lookup
      "Content-Disposition" =
      some ("attachment; filename=\"" ++ sanitizeName "Road, Trip, Mix" ++ ".zip\"") ∧
    sanitizeName "Road, Trip, Mix" =
      String.mk ("Road, Trip, Mix".data.map fun c => if c = ',' then '_' else c) ∧
    ',' ∉ (sanitizeName "Road, Trip, Mix" ++ ".zip").data :=
  collection_download_filename_sanitized _ _ _ _ (.playlist "Road, Trip, Mix") _
    (by decide) rfl rfl rfl

/-- C10 counterexample: the claim says the inline delivery branch and the
refactored serveStream produce identical responses, and that for a
"bytes=" Range not parsing to 0-1 both serve the full-request path; at
Range "bytes=5-10" on a non-seekable stream the inline branch serves the
full request while serveStream produces no output. -/
theorem inline_refactored_delivery_differ :
    streamInline ⟨"GET", "bytes=5-10", "", 0, 0, false⟩
        ⟨"d.mp3", "audio/mpeg", "6", 4, false, 50, [1, 2]⟩ emptyWriter ≠
      serveStream ⟨"GET", "bytes=5-10", "", 0, 0, false⟩
        ⟨"d.mp3", "audio/mpeg", "6", 4, false, 50, [1, 2]⟩ emptyWriter := by
  decide

/-- C10 (amended): the inline delivery branch and the refactored
serveStream produce identical results for every request and Stream except
when the Stream is non-seekable and the Range header begins with "bytes="
but does not parse to 0-1 (there the inline branch serves the
full-request path while serveStream writes nothing). -/
theorem inline_refactored_agree_outside_divergence (r : HttpRequest)
    (s : Stream) (w0 : ResponseWriter)
    (h : s.seekable = true ∨ goHasPrefix r.rangeHdr "bytes=" = false ∨
      parseRangeHeader r.rangeHdr = (0, 1)) :
    streamInline r s w0 = serveStream r s w0 := by
  by_cases hseek : s.seekable = true
  · rw [streamInline_seekable r s w0 hseek, serveStream_seekable r s w0 hseek]
  · have hseek' : s.seekable = false := by
      revert hseek
      cases s.seekable <;> simp
    rcases h with h | h | h
    · exact absurd h hseek
    · rw [streamInline_full r s w0 hseek' h, serveStream_full r s w0 hseek' h]
    · by_cases hpre : goHasPrefix r.rangeHdr "bytes=" = true
      · rw [streamInline_probe r s w0 hseek' hpre h,
          serveStream_probe r s w0 hseek' hpre h]
      · have hpre' : goHasPrefix r.rangeHdr "bytes=" = false := by
          revert hpre
          cases goHasPrefix r.rangeHdr "bytes=" <;> simp
        rw [streamInline_full r s w0 hseek' hpre',
          serveStream_full r s w0 hseek' hpre']

theorem inline_refactored_agree_outside_divergence_witness :
    streamInline ⟨"GET", "", "", 0, 0, false⟩
        ⟨"e.mp3", "audio/mpeg", "8", 1, false, 12, [6, 6]⟩ emptyWriter =
      serveStream ⟨"GET", "", "", 0, 0, false⟩
        ⟨"e.mp3", "audio/mpeg", "8", 1, false, 12, [6, 6]⟩ emptyWriter :=
  inline_refactored_agree_outside_divergence _ _ _ (Or.inr (Or.inl (by decide)))

end Subsonic
